import Mathlib

/-!
Mutator pipeline, phases and the wheel build mutator

A shallow embedding of `bundle/phases/phase.go`, `bundle/artifacts/whl/build.go`
and `cmd/labs/project/entrypoint.go`.

Go passes the bundle by pointer and mutates it in place; here every `Apply`
takes the state before the call and returns the state after it.  Log lines,
process launches and directory scans are recorded in a write-only list of
events, so that "was never invoked" and "performs no process invocation" are
statements about that list.
-/

namespace diag

/-- Modelled from the spec: package `libs/diag` is not among the sources.
Severity of a diagnostic, ordered by decreasing fatality. -/
inductive Severity
  | Error
  | Warning
  | Info
  | Recommendation
  deriving DecidableEq, Repr

/-- Modelled from the spec: package `libs/diag` is not among the sources.
A diagnostic has a severity and a human readable summary. -/
structure Diagnostic where
  Severity : Severity
  Summary : String
  deriving DecidableEq, Repr

/-- Modelled from the spec: `Diagnostics` is an ordered sequence of diagnostics. -/
abbrev Diagnostics := List Diagnostic

/-- Modelled from the spec: `Errorf` builds a single-element `Diagnostics` of
Error severity whose summary is the formatted text. -/
def Errorf (summary : String) : Diagnostics :=
  [{ Severity := Severity.Error, Summary := summary }]

/-- Modelled from the spec: `HasError` is true iff some element has Error severity. -/
def HasError (d : Diagnostics) : Bool :=
  d.any (fun x => decide (x.Severity = Severity.Error))

end diag

namespace config

/-- Modelled from the spec: a produced file descriptor, holding its `Source` path. -/
structure ArtifactFile where
  Source : String
  deriving DecidableEq, Repr

/-- Modelled from the spec: an artifact has a type, a source directory, a build
command and the ordered sequence of produced files. -/
structure Artifact where
  ArtifactType : String
  Path : String
  BuildCommand : String
  Files : List ArtifactFile
  deriving DecidableEq, Repr

/-- Modelled from the spec: the configuration tree; only the named artifacts
matter here.  The Go map holds pointers to artifacts, keyed by unique name. -/
structure Root where
  Artifacts : String → Option Artifact

end config

/-- An observable side effect. -/
inductive Event
  | logInfo (msg : String)
  | logString (msg : String)
  | exec (command : String) (dir : String)
  | readDir (dir : String)
  | other (tag : String)
  deriving DecidableEq, Repr

/-- What an external process reports: its combined output, its error (if it
failed to launch or exited non-zero) and the directory tree it leaves behind. -/
structure ProcResult where
  out : String
  err : Option String
  dirs : String → Option (List String)

/-- The world outside the bundle: `dirs d` is the listing of directory `d` in
the order the file system reports it (`none` when it cannot be opened), and
`run command dir tree` is what launching `command` in `dir` does. -/
structure World where
  dirs : String → Option (List String)
  run : String → String → (String → Option (List String)) → ProcResult

namespace filepath

/-- Split a path at every occurrence of the separator. -/
def splitOn (sep : Char) : List Char → List (List Char)
  | [] => [[]]
  | c :: cs =>
    match splitOn sep cs with
    | [] => [[c]]
    | h :: t => if c = sep then [] :: h :: t else (c :: h) :: t

/-- One step of `Clean` over the path elements seen so far (most recent first):
empty and `.` elements are dropped, `..` removes the element before it, is
dropped at the root, and is kept at the start of a relative path. -/
def cleanPush (rooted : Bool) (stack : List (List Char)) (comp : List Char) :
    List (List Char) :=
  if comp = [] ∨ comp = ['.'] then stack
  else if comp = ['.', '.'] then
    match stack with
    | [] => if rooted then [] else [comp]
    | top :: rest => if top = ['.', '.'] then comp :: stack else rest
  else comp :: stack

/-- The standard library's `filepath.Clean` for slash-separated paths: the
shortest path name equivalent to `path` by purely lexical processing. -/
def Clean (path : String) : String :=
  let cs := path.data
  if cs = [] then "."
  else
    let rooted : Bool := cs.head? = some '/'
    let comps := ((splitOn '/' cs).foldl (cleanPush rooted) []).reverse
    let body := List.intercalate ['/'] comps
    if rooted then String.mk ('/' :: body)
    else if body = [] then "."
    else String.mk body

/-- The standard library's `filepath.Join`: leading empty elements are ignored,
the rest is joined with the separator and cleaned; all empty gives "". -/
def Join (elem : List String) : String :=
  match elem.dropWhile (fun e => decide (e = "")) with
  | [] => ""
  | rest => Clean (String.intercalate "/" rest)

end filepath

namespace config

/-- Modelled from the spec: `Artifact.Build` is not among the sources.  It runs
the artifact's build command as an external process with the artifact's `Path`
as working directory and returns the captured combined output and the error. -/
def Artifact.Build (a : Artifact) (w : World) :
    (String × Option String) × World × List Event :=
  let r := w.run a.BuildCommand a.Path w.dirs
  ((r.out, r.err), { w with dirs := r.dirs }, [Event.exec a.BuildCommand a.Path])

end config

namespace python

/-- Modelled from the spec: `FindFilesWithSuffixInPath` is not among the sources.
It scans `dir` for entries whose name ends in `suffix` and returns their paths
in lexicographic order; a directory that cannot be read yields nothing. -/
def FindFilesWithSuffixInPath (w : World) (dir suffix : String) : List String :=
  match w.dirs dir with
  | none => []
  | some names =>
    ((names.filter (fun n => suffix.data.isSuffixOf n.data)).map
      (fun n => filepath.Join [dir, n])).insertionSort (fun a b => a.data ≤ b.data)

end python

namespace bundle

/-- Modelled from the spec: the shared configuration object. -/
structure Bundle where
  Config : config.Root

/-- The state a mutator works on: the bundle behind the pointer and the world. -/
structure State where
  b : Bundle
  world : World

/-- Result of one `Apply`: the returned diagnostics, the state afterwards and
the side effects in the order they happened. -/
structure Outcome where
  diags : diag.Diagnostics
  state : State
  events : List Event

/-- Modelled from the spec: a mutator has a `Name` and an `Apply`. -/
structure Mutator where
  Name : String
  Apply : State → Outcome

/-- Modelled from the spec: `bundle.Apply` is the entry point that runs a
mutator against a bundle and returns its diagnostics. -/
def Apply (s : State) (m : Mutator) : Outcome :=
  m.Apply s

/-- Modelled from the spec: the sequencer loop.  Iterate in declaration order,
concatenate the returned diagnostics onto the accumulator, and stop as soon as
the diagnostics just returned contain an Error. -/
def seqLoop : List Mutator → Outcome → Outcome
  | [], acc => acc
  | m :: ms, acc =>
    let r := Apply acc.state m
    let acc2 : Outcome := ⟨acc.diags ++ r.diags, r.state, acc.events ++ r.events⟩
    if diag.HasError r.diags then acc2 else seqLoop ms acc2

/-- Modelled from the spec: `Seq` composes a list of mutators into one mutator. -/
def Seq (ms : List Mutator) : Mutator :=
  { Name := "seq", Apply := fun s => seqLoop ms ⟨[], s, []⟩ }

/-- Reference run used to state the sequencer contract: apply every mutator of
the list in order, never stopping, and concatenate what they return. -/
def applyAll : List Mutator → State → Outcome
  | [], s => ⟨[], s, []⟩
  | m :: ms, s =>
    let r := m.Apply s
    let rest := applyAll ms r.state
    ⟨r.diags ++ rest.diags, rest.state, r.events ++ rest.events⟩

/-- Every mutator of the list, run in order from `s`, returns no Error. -/
def allSucceed : List Mutator → State → Bool
  | [], _ => true
  | m :: ms, s =>
    let r := m.Apply s
    !diag.HasError r.diags && allSucceed ms r.state

end bundle

namespace phases

/-- The phase type groups mutators that belong to a lifecycle phase. -/
structure phase where
  name : String
  mutators : List bundle.Mutator

/-- Method `Name` of a phase. -/
def phase.Name (p : phase) : String :=
  p.name

/-- Method `Apply` of a phase: log the phase name, then apply the sequence of
its mutators. -/
def phase.Apply (p : phase) (s : bundle.State) : bundle.Outcome :=
  let r := bundle.Apply s (bundle.Seq p.mutators)
  ⟨r.diags, r.state, Event.logInfo ("Phase: " ++ p.Name) :: r.events⟩

/-- Constructor `newPhase`: the phase seen as a mutator. -/
def newPhase (name : String) (mutators : List bundle.Mutator) : bundle.Mutator :=
  let p : phase := { name := name, mutators := mutators }
  { Name := p.Name, Apply := p.Apply }

end phases

namespace whl

/-- The wheel build mutator, identified by the artifact name. -/
structure build where
  name : String

/-- Method `Name` of the build mutator. -/
def build.Name (m : build) : String :=
  "artifacts.whl.Build(" ++ m.name ++ ")"

/-- Store `a` under `name` in the bundle (the write through the map's pointer). -/
def setArtifact (b : bundle.Bundle) (name : String) (a : config.Artifact) : bundle.Bundle :=
  { b with Config := { b.Config with
      Artifacts := fun k => if k = name then some a else b.Config.Artifacts k } }

/-- Method `Apply` of the build mutator. -/
def build.Apply (m : build) (s : bundle.State) : bundle.Outcome :=
  match s.b.Config.Artifacts m.name with
  | none => ⟨diag.Errorf ("artifact doesn't exist: " ++ m.name), s, []⟩
  | some artifact =>
    let ev1 := [Event.logString ("Building " ++ m.name ++ "...")]
    match artifact.Build s.world with
    | ((out, some err), w1, ev2) =>
      ⟨diag.Errorf ("build failed " ++ m.name ++ ", error: " ++ err ++ ", output: " ++ out),
        ⟨s.b, w1⟩, ev1 ++ ev2⟩
    | ((_, none), w1, ev2) =>
      let ev3 := [Event.logInfo "Build succeeded"]
      let dir := artifact.Path
      let distPath := filepath.Join [artifact.Path, "dist"]
      let wheels := python.FindFilesWithSuffixInPath w1 distPath ".whl"
      let ev4 := [Event.readDir distPath]
      if wheels.length = 0 then
        ⟨diag.Errorf ("cannot find built wheel in " ++ dir ++ " for package " ++ m.name),
          ⟨s.b, w1⟩, ev1 ++ ev2 ++ ev3 ++ ev4⟩
      else
        let files := wheels.foldl
          (fun fs wheel => fs ++ [({ Source := wheel } : config.ArtifactFile)]) artifact.Files
        ⟨[], ⟨setArtifact s.b m.name { artifact with Files := files }, w1⟩,
          ev1 ++ ev2 ++ ev3 ++ ev4⟩

/-- Constructor `Build`: the build mutator for the named artifact. -/
def Build (name : String) : bundle.Mutator :=
  let m : build := { name := name }
  { Name := m.Name, Apply := m.Apply }

end whl

namespace filepath

/-- A path element that `Clean` keeps as it is: not empty, without a separator,
and neither `.` nor `..`. -/
def plainElem (c : List Char) : Bool :=
  decide (c ≠ []) && !c.contains '/' && decide (c ≠ ['.']) && decide (c ≠ ['.', '.'])

/-- The path written from its elements: joined by the separator, after a
leading separator when rooted. -/
def fromElems (rooted : Bool) (cs : List (List Char)) : String :=
  String.mk ((if rooted then ['/'] else []) ++ List.intercalate ['/'] cs)

end filepath

/-! ## Entrypoints of labs projects -/

namespace project

/-- A Go error value: a sentinel made by `errors.New`, or an error wrapped by
`fmt.Errorf("pfx: %w", inner)`. -/
inductive GoError
  | new (msg : String)
  | wrap (pfx : String) (inner : GoError)
  deriving DecidableEq, Repr

/-- The message of an error. -/
def GoError.Error : GoError → String
  | GoError.new msg => msg
  | GoError.wrap pfx inner => pfx ++ ": " ++ inner.Error

/-- The standard library's `errors.Is`: the target occurs in the wrap chain. -/
def GoError.Is : GoError → GoError → Bool
  | GoError.new msg, target => decide (GoError.new msg = target)
  | GoError.wrap pfx inner, target =>
    decide (GoError.wrap pfx inner = target) || inner.Is target

/-- What a Go call hands back: a value, an error, or a panic raised by the
dereference of a nil pointer. -/
inductive Result (α : Type)
  | ok (v : α)
  | error (e : GoError)
  | panic
  deriving DecidableEq, Repr

/-- The sentinel `fs.ErrNotExist` of the standard library. -/
def ErrNotExist : GoError := GoError.new "file does not exist"

/-- The sentinel `databricks.ErrNotAccountClient` of the SDK. -/
def ErrNotAccountClient : GoError := GoError.new "invalid Databricks Account configuration"

/-- The sentinel `ErrNoLoginConfig`. -/
def ErrNoLoginConfig : GoError := GoError.new "no login configuration found"

/-- The sentinel `ErrMissingClusterID`. -/
def ErrMissingClusterID : GoError :=
  GoError.new "missing a cluster compatible with Databricks Connect"

/-- The sentinel `ErrMissingWarehouseID`. -/
def ErrMissingWarehouseID : GoError := GoError.new "missing a SQL warehouse"

/-- The sentinel `ErrNotInTTY`. -/
def ErrNotInTTY : GoError := GoError.new "not in an interactive terminal"

/-- The SDK configuration object, with the fields this file reads or writes;
`Loaders` lists the configured loaders by the name the source gives them. -/
structure Config where
  Profile : String := ""
  ConfigFile : String := ""
  Host : String := ""
  AccountID : String := ""
  ClusterID : String := ""
  WarehouseID : String := ""
  Loaders : List String := []
  deriving DecidableEq, Repr

/-- The contents of `login.json`, declared in another file of the package; the
fields are the ones `entrypoint.go` reads. -/
structure loginConfig where
  WorkspaceProfile : String := ""
  AccountProfile : String := ""
  ClusterID : String := ""
  WarehouseID : String := ""
  deriving DecidableEq, Repr

/-- The installer hook of a project, declared in another file of the package;
the fields are the ones `entrypoint.go` reads. -/
structure hook where
  RequireDatabricksConnect : Bool
  MinRuntimeVersion : String
  WarehouseTypes : List String
  deriving DecidableEq, Repr

/-- The project an entrypoint belongs to, declared in another file of the
package; `Installer` is a pointer that may be nil. -/
structure Project where
  Installer : Option hook
  deriving DecidableEq, Repr

/-- An entrypoint of a labs project. -/
structure Entrypoint where
  Project : Project
  RequireRunningCluster : Bool
  IsUnauthenticated : Bool
  IsAccountLevel : Bool
  IsBundleAware : Bool
  deriving DecidableEq, Repr

/-- What the calls that leave `entrypoint.go` answer: the profile override of
the command, the load of `login.json` (value and error, as Go returns them),
the home directory, `Config.Authenticate` and `Config.EnsureResolved` (each
with the contents of the config object afterwards), `root.TryConfigureBundle`,
the workspace client config of the bundle in the context (if there is one) and
`Config.IsAccountClient`. -/
structure Env where
  profileOverride : String
  loadLoginConfig : Option loginConfig × Option GoError
  homeDir : String
  authenticate : Config → Option GoError × Config
  ensureResolved : Config → Option GoError × Config
  tryConfigureBundle : Option GoError
  bundleConfig : Option Config
  isAccountClient : Config → Bool

/-- Method `NeedsCluster`: the answer, and the entrypoint afterwards (the
minimum runtime version of the installer is defaulted in place). -/
def Entrypoint.NeedsCluster (e : Entrypoint) : Bool × Entrypoint :=
  match e.Project.Installer with
  | none => (false, e)
  | some i =>
    let i2 : hook :=
      if i.RequireDatabricksConnect && decide (i.MinRuntimeVersion = "") then
        { i with MinRuntimeVersion := "13.1" }
      else i
    (decide (i2.MinRuntimeVersion ≠ ""), { e with Project := { Installer := some i2 } })

/-- Method `NeedsWarehouse`. -/
def Entrypoint.NeedsWarehouse (e : Entrypoint) : Bool :=
  match e.Project.Installer with
  | none => false
  | some i => decide (i.WarehouseTypes.length ≠ 0)

/-- Method `envAwareConfig`. -/
def Entrypoint.envAwareConfig (_e : Entrypoint) (env : Env) : Config :=
  { ConfigFile := filepath.Join [env.homeDir, ".databrickscfg"]
    Loaders := ["env.NewConfigLoader", "config.ConfigAttributes", "config.ConfigFile"] }

/-- Method `envAwareConfigWithProfile`. -/
def Entrypoint.envAwareConfigWithProfile (e : Entrypoint) (env : Env) (profile : String) :
    Config :=
  let cfg := e.envAwareConfig env
  { cfg with Profile := profile }

/-- Method `isAuthConfigured`: the answer and the config object afterwards. -/
def Entrypoint.isAuthConfigured (_e : Entrypoint) (env : Env) (cfg : Config) : Bool × Config :=
  let r := env.authenticate cfg
  (r.1.isNone, r.2)

/-- Method `getLoginConfig` (log lines left out). -/
def Entrypoint.getLoginConfig (e : Entrypoint) (env : Env) : Result (loginConfig × Config) :=
  let profileOverride := env.profileOverride
  if profileOverride ≠ "" then
    Result.ok ({}, e.envAwareConfigWithProfile env profileOverride)
  else
    let lc := env.loadLoginConfig.1
    let err := env.loadLoginConfig.2
    let isNoLoginConfig : Bool :=
      match err with
      | some x => x.Is ErrNotExist
      | none => false
    let defaultConfig := e.envAwareConfig env
    if isNoLoginConfig && !e.IsBundleAware && (e.isAuthConfigured env defaultConfig).1 then
      Result.ok ({}, (e.isAuthConfigured env defaultConfig).2)
    else if isNoLoginConfig && !e.IsBundleAware then
      Result.error ErrNoLoginConfig
    else
      match (if isNoLoginConfig then none else err) with
      | some x => Result.error (GoError.wrap "load" x)
      | none =>
        let workspace : Result (loginConfig × Config) :=
          match lc with
          | none => Result.panic
          | some l => Result.ok (l, e.envAwareConfigWithProfile env l.WorkspaceProfile)
        if e.IsAccountLevel then
          match lc with
          | none => Result.panic
          | some l => Result.ok (l, e.envAwareConfigWithProfile env l.AccountProfile)
        else if e.IsBundleAware then
          match env.tryConfigureBundle with
          | some x => Result.error (GoError.wrap "bundle" x)
          | none =>
            match env.bundleConfig with
            | some c => Result.ok ({}, c)
            | none => workspace
        else workspace

/-- The merge of the claim, in its words: a field of the resolved config is
kept when it is non-empty, and taken from `login.json` only when it is empty
and the project needs it. -/
def mergedLogin (needsCluster needsWarehouse : Bool) (lc : loginConfig) (r : Config) : Config :=
  { r with
    ClusterID :=
      if r.ClusterID ≠ "" then r.ClusterID
      else if needsCluster then lc.ClusterID else r.ClusterID
    WarehouseID :=
      if r.WarehouseID ≠ "" then r.WarehouseID
      else if needsWarehouse then lc.WarehouseID else r.WarehouseID }

/-- Method `validLogin`: what it returns, and the contents of the config object
obtained from `getLoginConfig` when it returns (the merge writes through the
pointer). -/
def Entrypoint.validLogin (e : Entrypoint) (env : Env) : Result Config × Option Config :=
  if e.IsUnauthenticated then (Result.ok {}, none)
  else
    match e.getLoginConfig env with
    | Result.error err => (Result.error (GoError.wrap "login config" err), none)
    | Result.panic => (Result.panic, none)
    | Result.ok (lc, cfg) =>
      match env.ensureResolved cfg with
      | (some err, cfg1) => (Result.error err, some cfg1)
      | (none, cfg1) =>
        let e1 := e.NeedsCluster.2
        let cfg2 : Config :=
          if e.NeedsCluster.1 && decide (cfg1.ClusterID = "") then
            { cfg1 with ClusterID := lc.ClusterID }
          else cfg1
        let cfg3 : Config :=
          if e1.NeedsWarehouse && decide (cfg2.WarehouseID = "") then
            { cfg2 with WarehouseID := lc.WarehouseID }
          else cfg2
        let isACC := env.isAccountClient cfg3
        if e1.IsAccountLevel && !isACC then (Result.error ErrNotAccountClient, some cfg3)
        else
          let e2 := e1.NeedsCluster.2
          if e1.NeedsCluster.1 && !isACC && decide (cfg3.ClusterID = "") then
            (Result.error ErrMissingClusterID, some cfg3)
          else if e2.NeedsWarehouse && !isACC && decide (cfg3.WarehouseID = "") then
            (Result.error ErrMissingWarehouseID, some cfg3)
          else (Result.ok cfg3, some cfg3)

end project

namespace project

/-- What a run sees of its surroundings: `getenv k` is what `env.Get(ctx, k)`
answers ("" when unset) and `pathListSeparator` is `os.PathListSeparator`. -/
structure Ctx where
  getenv : String → String
  pathListSeparator : Char

/-- The methods `EffectiveLibDir` and `virtualEnvPath` of `Project`, declared in
another file of the package: what they answer in a given context. -/
structure Dirs where
  EffectiveLibDir : Ctx → String
  virtualEnvPath : Ctx → String

/-- Method `joinPaths`: the paths joined by the path-list separator. -/
def Entrypoint.joinPaths (_e : Entrypoint) (ctx : Ctx) (paths : List String) : String :=
  String.intercalate (String.singleton ctx.pathListSeparator) paths

/-- The assignment `environment[k] = v` on a Go map. -/
def setEnv (environment : String → Option String) (k v : String) : String → Option String :=
  fun q => if q = k then some v else environment q

/-- Method `preparePython`: the map afterwards. -/
def Entrypoint.preparePython (e : Entrypoint) (dirs : Dirs) (ctx : Ctx)
    (environment : String → Option String) : String → Option String :=
  let venv := dirs.virtualEnvPath ctx
  let environment1 := setEnv environment "PATH"
    (e.joinPaths ctx [filepath.Join [venv, "bin"], ctx.getenv "PATH"])
  let libDir := dirs.EffectiveLibDir ctx
  setEnv environment1 "PYTHONPATH" (e.joinPaths ctx [libDir, filepath.Join [libDir, "src"]])

end project

/-! ## Command line of `external-locations create` -/

namespace cobra

/-- The part of a cobra command that `newCreate` sets and that matters here.
`Args` validates the positional arguments; its first argument answers
`cmd.Flags().Changed(name)`. -/
structure Command where
  Use : String
  Short : String
  Args : (String → Bool) → List String → Option project.GoError

/-- The library's `ExactArgs(n)`: an error unless there are exactly `n` arguments. -/
def ExactArgs (n : Nat) (args : List String) : Option project.GoError :=
  if args.length ≠ n then
    some (project.GoError.new
      ("accepts " ++ toString n ++ " arg(s), received " ++ toString args.length))
  else none

end cobra

namespace external_locations

/-- Constructor `newCreate`: the `create` command (no override is registered
for it in this package). -/
def newCreate : cobra.Command :=
  { Use := "create NAME URL CREDENTIAL_NAME"
    Short := "Create an external location."
    Args := fun changed args =>
      if changed "json" then
        match cobra.ExactArgs 0 args with
        | some _ =>
          some (project.GoError.new
            ("when --json flag is specified, no positional arguments are required. "
              ++ "Provide 'name', 'url', 'credential_name' in your JSON input"))
        | none => none
      else
        let check := cobra.ExactArgs 3
        check args }

end external_locations

/-! ## Concrete inputs -/

namespace sample

/-- A bundle without artifacts. -/
def emptyBundle : bundle.Bundle :=
  { Config := { Artifacts := fun _ => none } }

/-- A world with no directories in which every process succeeds silently. -/
def quietWorld : World :=
  { dirs := fun _ => none, run := fun _ _ d => { out := "", err := none, dirs := d } }

/-- The empty bundle in the quiet world. -/
def state0 : bundle.State :=
  { b := emptyBundle, world := quietWorld }

/-- A stub mutator that returns one Warning and records its invocation. -/
def stubWarn : bundle.Mutator :=
  { Name := "warn"
    Apply := fun s => ⟨[{ Severity := diag.Severity.Warning, Summary := "careful" }], s,
      [Event.other "warn"]⟩ }

/-- A stub mutator that returns one Error and records its invocation. -/
def stubFail : bundle.Mutator :=
  { Name := "fail"
    Apply := fun s => ⟨diag.Errorf "boom", s, [Event.other "fail"]⟩ }

/-- A counting stub: it returns nothing and records its invocation. -/
def stubCount : bundle.Mutator :=
  { Name := "count"
    Apply := fun s => ⟨[], s, [Event.other "count"]⟩ }

/-- An artifact named `mylib` in directory `pkg` that already lists one file. -/
def pkgArtifact : config.Artifact :=
  { ArtifactType := "whl", Path := "pkg", BuildCommand := "python3 setup.py bdist_wheel",
    Files := [{ Source := "pkg/dist/old.whl" }] }

/-- A bundle holding `pkgArtifact` under the name `mylib` and nothing else. -/
def pkgBundle : bundle.Bundle :=
  { Config := { Artifacts := fun k => if k = "mylib" then some pkgArtifact else none } }

/-- A world in which every process fails with exit status 1. -/
def failingWorld : World :=
  { dirs := fun _ => none
    run := fun _ _ d => { out := "error: invalid command", err := some "exit status 1", dirs := d } }

/-- A world in which a process succeeds and leaves `listing` in `dist` under
its working directory. -/
def wheelWorld (listing : List String) : World :=
  { dirs := fun _ => none
    run := fun _ dir d =>
      { out := "ok", err := none
        dirs := fun q => if q = filepath.Join [dir, "dist"] then some listing else d q } }

/-- A project whose installer requires Databricks Connect and a warehouse. -/
def labsEntrypoint : project.Entrypoint :=
  { Project :=
      { Installer := some (project.hook.mk true "" ["PRO"]) }
    RequireRunningCluster := false, IsUnauthenticated := false, IsAccountLevel := false,
    IsBundleAware := false }

/-- The contents of `login.json` of the sample project. -/
def labsLogin : project.loginConfig :=
  { WorkspaceProfile := "dev", AccountProfile := "acc", ClusterID := "login-cluster",
    WarehouseID := "login-warehouse" }

/-- An environment in which `login.json` loads, and resolving the profile
yields a cluster id but no warehouse id. -/
def labsEnv : project.Env :=
  { profileOverride := ""
    loadLoginConfig := (some labsLogin, none)
    homeDir := "/home/u"
    authenticate := fun c => (none, c)
    ensureResolved := fun c => (none, { c with Host := "https://h", ClusterID := "cfg-cluster" })
    tryConfigureBundle := none
    bundleConfig := none
    isAccountClient := fun _ => false }

/-- An environment in which `login.json` does not exist and authentication is
configured through the environment. -/
def noLoginEnv : project.Env :=
  { profileOverride := ""
    loadLoginConfig := (none, some (project.GoError.wrap "try load" project.ErrNotExist))
    homeDir := "/home/u"
    authenticate := fun c => (none, c)
    ensureResolved := fun c => (none, c)
    tryConfigureBundle := none
    bundleConfig := none
    isAccountClient := fun _ => false }

/-- A Unix context with the given ambient `PYTHONPATH`. -/
def unixCtx (pythonpath : String) : project.Ctx :=
  { getenv := fun k =>
      if k = "PATH" then "/usr/bin:/bin"
      else if k = "PYTHONPATH" then pythonpath else ""
    pathListSeparator := ':' }

/-- A project installed under the home directory of `u`. -/
def labsDirs : project.Dirs :=
  { EffectiveLibDir := fun _ => "/home/u/.databricks/labs/x/lib"
    virtualEnvPath := fun _ => "/home/u/.databricks/labs/x/state/venv" }

/-- An environment in which `login.json` exists but does not parse. -/
def brokenLoginEnv : project.Env :=
  { noLoginEnv with
    loadLoginConfig := (none, some (project.GoError.wrap "try load"
      (project.GoError.wrap "parse /home/u/.databricks/labs/x/config/login.json"
        (project.GoError.new "unexpected end of JSON input")))) }

end sample

/-! ## Sequencer and phase -/

namespace bundle

theorem seqLoop_allSucceed (ms : List Mutator) (acc : Outcome)
    (h : allSucceed ms acc.state = true) :
    seqLoop ms acc =
      ⟨acc.diags ++ (applyAll ms acc.state).diags, (applyAll ms acc.state).state,
        acc.events ++ (applyAll ms acc.state).events⟩ := by
  induction ms generalizing acc with
  | nil => simp [seqLoop, applyAll]
  | cons m ms ih =>
    simp only [allSucceed, Bool.and_eq_true, Bool.not_eq_true'] at h
    simp only [seqLoop, Apply, h.1, Bool.false_eq_true, if_false, applyAll]
    rw [ih ⟨acc.diags ++ (m.Apply acc.state).diags, (m.Apply acc.state).state,
      acc.events ++ (m.Apply acc.state).events⟩ h.2]
    simp [List.append_assoc]

theorem seqLoop_stops (pre : List Mutator) (mk : Mutator) (post : List Mutator)
    (acc : Outcome) (hpre : allSucceed pre acc.state = true)
    (hk : diag.HasError (mk.Apply (applyAll pre acc.state).state).diags = true) :
    seqLoop (pre ++ mk :: post) acc =
      ⟨acc.diags ++ (applyAll (pre ++ [mk]) acc.state).diags,
        (applyAll (pre ++ [mk]) acc.state).state,
        acc.events ++ (applyAll (pre ++ [mk]) acc.state).events⟩ := by
  induction pre generalizing acc with
  | nil =>
    simp only [applyAll] at hk
    simp [seqLoop, Apply, applyAll, hk]
  | cons m ms ih =>
    simp only [allSucceed, Bool.and_eq_true, Bool.not_eq_true'] at hpre
    simp only [applyAll] at hk
    simp only [List.cons_append, seqLoop, Apply, hpre.1, Bool.false_eq_true, if_false, applyAll,
      List.append_eq]
    rw [ih ⟨acc.diags ++ (m.Apply acc.state).diags, (m.Apply acc.state).state,
      acc.events ++ (m.Apply acc.state).events⟩ hpre.2 hk]
    simp [List.append_assoc]

end bundle

/-- C1 (fail-fast). If the mutators `pre` all succeed when run in order from `s`
and `mk`, applied to the state they leave, returns an Error, then applying the
phase built from `pre ++ mk :: post` returns the diagnostics of `pre ++ [mk]`
concatenated in order, leaves the state left by `pre ++ [mk]`, and its side
effects are the phase log line followed by those of `pre ++ [mk]`: nothing of
`post` is invoked. -/
theorem phase_apply_fail_fast (name : String) (pre : List bundle.Mutator)
    (mk : bundle.Mutator) (post : List bundle.Mutator) (s : bundle.State)
    (hpre : bundle.allSucceed pre s = true)
    (hk : diag.HasError (mk.Apply (bundle.applyAll pre s).state).diags = true) :
    (phases.phase.Apply ⟨name, pre ++ mk :: post⟩ s).diags
        = (bundle.applyAll (pre ++ [mk]) s).diags ∧
    (phases.phase.Apply ⟨name, pre ++ mk :: post⟩ s).state
        = (bundle.applyAll (pre ++ [mk]) s).state ∧
    (phases.phase.Apply ⟨name, pre ++ mk :: post⟩ s).events
        = Event.logInfo ("Phase: " ++ name) :: (bundle.applyAll (pre ++ [mk]) s).events := by
  have h := bundle.seqLoop_stops pre mk post ⟨[], s, []⟩ hpre hk
  simp only [phases.phase.Apply, phases.phase.Name, bundle.Apply, bundle.Seq, h]
  simp

/-- Witness for C1: a phase of a warning stub, a failing stub and a counting
stub stops after the failing stub. -/
theorem phase_apply_fail_fast_witness :
    (phases.phase.Apply ⟨"build", [sample.stubWarn] ++ sample.stubFail :: [sample.stubCount]⟩
        sample.state0).diags
        = (bundle.applyAll ([sample.stubWarn] ++ [sample.stubFail]) sample.state0).diags ∧
    (phases.phase.Apply ⟨"build", [sample.stubWarn] ++ sample.stubFail :: [sample.stubCount]⟩
        sample.state0).state
        = (bundle.applyAll ([sample.stubWarn] ++ [sample.stubFail]) sample.state0).state ∧
    (phases.phase.Apply ⟨"build", [sample.stubWarn] ++ sample.stubFail :: [sample.stubCount]⟩
        sample.state0).events
        = Event.logInfo ("Phase: " ++ "build")
            :: (bundle.applyAll ([sample.stubWarn] ++ [sample.stubFail]) sample.state0).events :=
  phase_apply_fail_fast "build" [sample.stubWarn] sample.stubFail [sample.stubCount]
    sample.state0 (by decide) (by decide)

/-- C2 (phase transparency). For every name, list of children and state, the
phase returns exactly the diagnostics of `Seq(children).Apply` and leaves the
same state; the only difference is the extra "Phase: name" log line in front
of the side effects, so the name has no effect on the result. -/
theorem phase_apply_transparent (name : String) (ms : List bundle.Mutator) (s : bundle.State) :
    (phases.phase.Apply ⟨name, ms⟩ s).diags = ((bundle.Seq ms).Apply s).diags ∧
    (phases.phase.Apply ⟨name, ms⟩ s).state = ((bundle.Seq ms).Apply s).state ∧
    (phases.phase.Apply ⟨name, ms⟩ s).events
      = Event.logInfo ("Phase: " ++ name) :: ((bundle.Seq ms).Apply s).events ∧
    (∀ other : String,
      (phases.phase.Apply ⟨other, ms⟩ s).diags = (phases.phase.Apply ⟨name, ms⟩ s).diags ∧
      (phases.phase.Apply ⟨other, ms⟩ s).state = (phases.phase.Apply ⟨name, ms⟩ s).state) ∧
    ((phases.newPhase name ms).Apply s).diags = ((bundle.Seq ms).Apply s).diags ∧
    ((phases.newPhase name ms).Apply s).state = ((bundle.Seq ms).Apply s).state := by
  refine ⟨rfl, rfl, rfl, fun _ => ⟨rfl, rfl⟩, rfl, rfl⟩

/-! ## The wheel build mutator -/

namespace whl

theorem foldl_append_files (ws : List String) (F : List config.ArtifactFile) :
    ws.foldl (fun fs wheel => fs ++ [({ Source := wheel } : config.ArtifactFile)]) F
      = F ++ ws.map (fun w => ({ Source := w } : config.ArtifactFile)) := by
  induction ws generalizing F with
  | nil => simp
  | cons w ws ih => simp [ih, List.append_assoc]

theorem apply_missing (name : String) (s : bundle.State)
    (h : s.b.Config.Artifacts name = none) :
    build.Apply ⟨name⟩ s = ⟨diag.Errorf ("artifact doesn't exist: " ++ name), s, []⟩ := by
  simp [build.Apply, h]

theorem apply_failed (name : String) (s : bundle.State) (a : config.Artifact) (e : String)
    (h : s.b.Config.Artifacts name = some a) (he : (a.Build s.world).1.2 = some e) :
    build.Apply ⟨name⟩ s =
      ⟨diag.Errorf ("build failed " ++ name ++ ", error: " ++ e ++ ", output: "
          ++ (a.Build s.world).1.1),
        ⟨s.b, (a.Build s.world).2.1⟩,
        [Event.logString ("Building " ++ name ++ "..."), Event.exec a.BuildCommand a.Path]⟩ := by
  simp only [config.Artifact.Build] at he
  simp [build.Apply, h, config.Artifact.Build, he]

theorem apply_empty (name : String) (s : bundle.State) (a : config.Artifact)
    (h : s.b.Config.Artifacts name = some a) (he : (a.Build s.world).1.2 = none)
    (hw : python.FindFilesWithSuffixInPath (a.Build s.world).2.1
      (filepath.Join [a.Path, "dist"]) ".whl" = []) :
    build.Apply ⟨name⟩ s =
      ⟨diag.Errorf ("cannot find built wheel in " ++ a.Path ++ " for package " ++ name),
        ⟨s.b, (a.Build s.world).2.1⟩,
        [Event.logString ("Building " ++ name ++ "..."), Event.exec a.BuildCommand a.Path,
          Event.logInfo "Build succeeded", Event.readDir (filepath.Join [a.Path, "dist"])]⟩ := by
  simp only [config.Artifact.Build] at he hw
  simp [build.Apply, h, config.Artifact.Build, he, hw]

theorem apply_found (name : String) (s : bundle.State) (a : config.Artifact)
    (h : s.b.Config.Artifacts name = some a) (he : (a.Build s.world).1.2 = none)
    (hw : python.FindFilesWithSuffixInPath (a.Build s.world).2.1
      (filepath.Join [a.Path, "dist"]) ".whl" ≠ []) :
    build.Apply ⟨name⟩ s =
      ⟨[], ⟨setArtifact s.b name
          { a with
            Files := a.Files ++ List.map (fun w => ({ Source := w } : config.ArtifactFile))
              (python.FindFilesWithSuffixInPath (a.Build s.world).2.1
                (filepath.Join [a.Path, "dist"]) ".whl") },
          (a.Build s.world).2.1⟩,
        [Event.logString ("Building " ++ name ++ "..."), Event.exec a.BuildCommand a.Path,
          Event.logInfo "Build succeeded", Event.readDir (filepath.Join [a.Path, "dist"])]⟩ := by
  simp only [config.Artifact.Build] at he hw
  simp [build.Apply, h, config.Artifact.Build, he, hw, foldl_append_files]

end whl

namespace python

theorem find_sorted (w : World) (dir suffix : String) :
    List.Sorted (fun a b : String => a.data ≤ b.data)
      (FindFilesWithSuffixInPath w dir suffix) := by
  have ht : IsTotal String (fun a b : String => a.data ≤ b.data) :=
    ⟨fun a b => le_total a.data b.data⟩
  have htr : IsTrans String (fun a b : String => a.data ≤ b.data) :=
    ⟨fun _ _ _ h1 h2 => le_trans h1 h2⟩
  unfold FindFilesWithSuffixInPath
  cases w.dirs dir with
  | none => simp
  | some names => exact List.sorted_insertionSort _ _

theorem find_perm (w : World) (dir suffix : String) (names : List String)
    (h : w.dirs dir = some names) :
    (FindFilesWithSuffixInPath w dir suffix).Perm
      ((names.filter (fun n => suffix.data.isSuffixOf n.data)).map
        (fun n => filepath.Join [dir, n])) := by
  unfold FindFilesWithSuffixInPath
  rw [h]
  exact List.perm_insertionSort _ _

theorem find_listing_order (w1 w2 : World) (dir suffix : String) (names1 names2 : List String)
    (h1 : w1.dirs dir = some names1) (h2 : w2.dirs dir = some names2)
    (hperm : names1.Perm names2) :
    FindFilesWithSuffixInPath w1 dir suffix = FindFilesWithSuffixInPath w2 dir suffix := by
  have ha : IsAntisymm String (fun a b : String => a.data ≤ b.data) :=
    ⟨fun a b h1 h2 => String.ext (le_antisymm h1 h2)⟩
  refine List.eq_of_perm_of_sorted ?_ (find_sorted w1 dir suffix) (find_sorted w2 dir suffix)
  refine (find_perm w1 dir suffix names1 h1).trans ?_
  refine List.Perm.trans ?_ (find_perm w2 dir suffix names2 h2).symm
  exact (hperm.filter _).map _

end python

/-- C3 (missing artifact). When `name` is not a key of the artifacts, the build
mutator returns exactly one diagnostic, of Error severity, with summary
"artifact doesn't exist: name"; it has no side effect at all (no process is
launched, no directory is scanned) and the state is unchanged. -/
theorem build_missing_artifact (name : String) (s : bundle.State)
    (h : s.b.Config.Artifacts name = none) :
    ((whl.Build name).Apply s).diags
      = [{ Severity := diag.Severity.Error, Summary := "artifact doesn't exist: " ++ name }] ∧
    ((whl.Build name).Apply s).events = [] ∧
    ((whl.Build name).Apply s).state = s := by
  have h1 := whl.apply_missing name s h
  simp [whl.Build, h1, diag.Errorf]

/-- Witness for C3: building `other` in a bundle that only has `mylib`. -/
theorem build_missing_artifact_witness :
    ((whl.Build "other").Apply ⟨sample.pkgBundle, sample.quietWorld⟩).diags
      = [{ Severity := diag.Severity.Error,
           Summary := "artifact doesn't exist: " ++ "other" }] ∧
    ((whl.Build "other").Apply ⟨sample.pkgBundle, sample.quietWorld⟩).events = [] ∧
    ((whl.Build "other").Apply ⟨sample.pkgBundle, sample.quietWorld⟩).state
      = ⟨sample.pkgBundle, sample.quietWorld⟩ :=
  build_missing_artifact "other" ⟨sample.pkgBundle, sample.quietWorld⟩ (by decide)

/-- C4 (artifact build failure). When the named artifact exists and its build
command fails with error `e`, the build mutator returns exactly one diagnostic,
of Error severity, whose summary contains the artifact name, the error and the
captured output; no directory is scanned, the bundle is unchanged and so is
the `Files` sequence of the artifact. -/
theorem build_command_failure (name : String) (s : bundle.State) (a : config.Artifact)
    (e : String) (h : s.b.Config.Artifacts name = some a)
    (he : (a.Build s.world).1.2 = some e) :
    ((whl.Build name).Apply s).diags
      = [{ Severity := diag.Severity.Error,
           Summary := "build failed " ++ name ++ ", error: " ++ e ++ ", output: "
             ++ (a.Build s.world).1.1 }] ∧
    name.data <:+: ("build failed " ++ name ++ ", error: " ++ e ++ ", output: "
             ++ (a.Build s.world).1.1).data ∧
    e.data <:+: ("build failed " ++ name ++ ", error: " ++ e ++ ", output: "
             ++ (a.Build s.world).1.1).data ∧
    (a.Build s.world).1.1.data <:+: ("build failed " ++ name ++ ", error: " ++ e
             ++ ", output: " ++ (a.Build s.world).1.1).data ∧
    (∀ d, Event.readDir d ∉ ((whl.Build name).Apply s).events) ∧
    ((whl.Build name).Apply s).state.b = s.b ∧
    (((whl.Build name).Apply s).state.b.Config.Artifacts name).map (fun x => x.Files)
      = some a.Files := by
  have h1 := whl.apply_failed name s a e h he
  refine ⟨?_, ?_, ?_, ?_, ?_, ?_, ?_⟩
  · simp [whl.Build, h1, diag.Errorf]
  · exact ⟨"build failed ".data, (", error: " ++ e ++ ", output: "
      ++ (a.Build s.world).1.1).data, by simp [String.data_append]⟩
  · exact ⟨("build failed " ++ name ++ ", error: ").data, (", output: "
      ++ (a.Build s.world).1.1).data, by simp [String.data_append]⟩
  · exact ⟨("build failed " ++ name ++ ", error: " ++ e ++ ", output: ").data, [],
      by simp [String.data_append]⟩
  · intro d
    simp [whl.Build, h1]
  · simp [whl.Build, h1]
  · simp [whl.Build, h1, h]

/-- Witness for C4: building `mylib` in a world where every process fails. -/
theorem build_command_failure_witness :
    ((whl.Build "mylib").Apply ⟨sample.pkgBundle, sample.failingWorld⟩).diags
      = [{ Severity := diag.Severity.Error,
           Summary := "build failed " ++ "mylib" ++ ", error: " ++ "exit status 1"
             ++ ", output: "
             ++ (sample.pkgArtifact.Build sample.failingWorld).1.1 }] ∧
    (((whl.Build "mylib").Apply ⟨sample.pkgBundle, sample.failingWorld⟩).state.b.Config.Artifacts
      "mylib").map (fun x => x.Files) = some sample.pkgArtifact.Files :=
  have h := build_command_failure "mylib" ⟨sample.pkgBundle, sample.failingWorld⟩
    sample.pkgArtifact "exit status 1" (by decide) (by decide)
  ⟨h.1, h.2.2.2.2.2.2⟩

/-- C5, amended (empty-output failure). When the named artifact exists, its
build command succeeds and the scan of `Path/dist` for ".whl" files yields
nothing, the build mutator returns exactly one diagnostic, of Error severity,
whose summary names the artifact and the artifact's `Path` (the directory
that holds `dist`); the bundle is unchanged and so is the `Files` sequence of
the artifact. -/
theorem build_empty_output (name : String) (s : bundle.State) (a : config.Artifact)
    (h : s.b.Config.Artifacts name = some a)
    (he : (a.Build s.world).1.2 = none)
    (hw : python.FindFilesWithSuffixInPath (a.Build s.world).2.1
      (filepath.Join [a.Path, "dist"]) ".whl" = []) :
    ((whl.Build name).Apply s).diags
      = [{ Severity := diag.Severity.Error,
           Summary := "cannot find built wheel in " ++ a.Path ++ " for package " ++ name }] ∧
    name.data <:+: ("cannot find built wheel in " ++ a.Path ++ " for package " ++ name).data ∧
    a.Path.data <:+: ("cannot find built wheel in " ++ a.Path ++ " for package " ++ name).data ∧
    ((whl.Build name).Apply s).state.b = s.b ∧
    (((whl.Build name).Apply s).state.b.Config.Artifacts name).map (fun x => x.Files)
      = some a.Files := by
  have h1 := whl.apply_empty name s a h he hw
  refine ⟨?_, ?_, ?_, ?_, ?_⟩
  · simp [whl.Build, h1, diag.Errorf]
  · exact ⟨("cannot find built wheel in " ++ a.Path ++ " for package ").data, [],
      by simp [String.data_append]⟩
  · exact ⟨"cannot find built wheel in ".data, (" for package " ++ name).data,
      by simp [String.data_append]⟩
  · simp [whl.Build, h1]
  · simp [whl.Build, h1, h]

/-- Witness for the amended C5: the build succeeds and `pkg/dist` does not exist. -/
theorem build_empty_output_witness :
    ((whl.Build "mylib").Apply ⟨sample.pkgBundle, sample.quietWorld⟩).diags
      = [{ Severity := diag.Severity.Error,
           Summary := "cannot find built wheel in pkg for package mylib" }] ∧
    (((whl.Build "mylib").Apply ⟨sample.pkgBundle, sample.quietWorld⟩).state.b.Config.Artifacts
      "mylib").map (fun x => x.Files) = some [{ Source := "pkg/dist/old.whl" }] :=
  have h := build_empty_output "mylib" ⟨sample.pkgBundle, sample.quietWorld⟩
    sample.pkgArtifact (by decide) (by decide) (by decide)
  ⟨h.1.trans (by decide), h.2.2.2.2.trans (by decide)⟩

/-- C5, as stated, fails: for the artifact `mylib` in directory `pkg`, with a
successful build that leaves only `notes.txt` in `pkg/dist`, the single Error
summary names `mylib` and `pkg` but does not contain the scanned directory
`pkg/dist`. -/
theorem build_empty_output_counterexample :
    ((whl.Build "mylib").Apply
        ⟨sample.pkgBundle, sample.wheelWorld ["notes.txt"]⟩).diags
      = [{ Severity := diag.Severity.Error,
           Summary := "cannot find built wheel in pkg for package mylib" }] ∧
    ¬ ("pkg/dist".data <:+: "cannot find built wheel in pkg for package mylib".data) ∧
    Event.readDir "pkg/dist"
      ∈ ((whl.Build "mylib").Apply
          ⟨sample.pkgBundle, sample.wheelWorld ["notes.txt"]⟩).events := by
  decide

/-- C6 (successful build appends). When the named artifact exists with files
`F`, its build succeeds and discovery returns the non-empty list `ws`, the
build mutator returns no diagnostics and the artifact stored under `name` keeps
all its attributes except `Files`, which becomes `F` followed by one descriptor
per discovered path, in order; `F` is a prefix of the new `Files` and every
other artifact of the bundle is unchanged. -/
theorem build_success_appends (name : String) (s : bundle.State) (a : config.Artifact)
    (ws : List String) (h : s.b.Config.Artifacts name = some a)
    (he : (a.Build s.world).1.2 = none)
    (hw : python.FindFilesWithSuffixInPath (a.Build s.world).2.1
      (filepath.Join [a.Path, "dist"]) ".whl" = ws)
    (hne : ws ≠ []) :
    ((whl.Build name).Apply s).diags = [] ∧
    ((whl.Build name).Apply s).state.b.Config.Artifacts name
      = some { a with
          Files := a.Files ++ ws.map (fun w => ({ Source := w } : config.ArtifactFile)) } ∧
    (∀ a2, ((whl.Build name).Apply s).state.b.Config.Artifacts name = some a2 →
      a.Files <+: a2.Files ∧ a2.Files.length = a.Files.length + ws.length) ∧
    (∀ other, other ≠ name →
      ((whl.Build name).Apply s).state.b.Config.Artifacts other
        = s.b.Config.Artifacts other) := by
  subst hw
  have h1 := whl.apply_found name s a h he hne
  refine ⟨?_, ?_, ?_, ?_⟩
  · simp [whl.Build, h1]
  · simp [whl.Build, h1, whl.setArtifact]
  · intro a2 h2
    simp only [whl.Build, h1, whl.setArtifact, if_true, Option.some.injEq] at h2
    subst h2
    simp
  · intro other hother
    simp [whl.Build, h1, whl.setArtifact, hother]

/-- Witness for C6: the build of `mylib` leaves two wheels in `pkg/dist`. -/
theorem build_success_appends_witness :
    ((whl.Build "mylib").Apply
        ⟨sample.pkgBundle, sample.wheelWorld ["b.whl", "notes.txt", "a.whl"]⟩).diags = [] ∧
    ((whl.Build "mylib").Apply
        ⟨sample.pkgBundle, sample.wheelWorld ["b.whl", "notes.txt", "a.whl"]⟩).state.b.Config.Artifacts
        "mylib"
      = some { sample.pkgArtifact with
          Files := sample.pkgArtifact.Files ++ ["pkg/dist/a.whl", "pkg/dist/b.whl"].map
            (fun w => ({ Source := w } : config.ArtifactFile)) } :=
  have h := build_success_appends "mylib"
    ⟨sample.pkgBundle, sample.wheelWorld ["b.whl", "notes.txt", "a.whl"]⟩
    sample.pkgArtifact ["pkg/dist/a.whl", "pkg/dist/b.whl"]
    (by decide) (by decide) (by decide) (by decide)
  ⟨h.1, h.2.1⟩

/-- C7 (artifact discovery determinism). With discovery as the spec describes
it, two runs of the build mutator on the same bundle whose builds succeed and
whose `Path/dist` listings are permutations of each other (at least one entry
ending in ".whl") append the same sequence `ws` of paths to `Files`, and `ws`
is sorted lexicographically and consists of exactly the ".whl" entries. -/
theorem build_discovery_deterministic (name : String) (b : bundle.Bundle) (w1 w2 : World)
    (a : config.Artifact) (names1 names2 : List String)
    (h : b.Config.Artifacts name = some a)
    (he1 : (a.Build w1).1.2 = none) (he2 : (a.Build w2).1.2 = none)
    (hd1 : (a.Build w1).2.1.dirs (filepath.Join [a.Path, "dist"]) = some names1)
    (hd2 : (a.Build w2).2.1.dirs (filepath.Join [a.Path, "dist"]) = some names2)
    (hperm : names1.Perm names2)
    (hne : ∃ n ∈ names1, ".whl".data.isSuffixOf n.data = true) :
    ∃ ws : List String,
      ws ≠ [] ∧
      List.Sorted (fun x y : String => x.data ≤ y.data) ws ∧
      ws.Perm ((names1.filter (fun n => ".whl".data.isSuffixOf n.data)).map
        (fun n => filepath.Join [filepath.Join [a.Path, "dist"], n])) ∧
      ((whl.Build name).Apply ⟨b, w1⟩).state.b.Config.Artifacts name
        = some { a with
            Files := a.Files ++ ws.map (fun w => ({ Source := w } : config.ArtifactFile)) } ∧
      ((whl.Build name).Apply ⟨b, w2⟩).state.b.Config.Artifacts name
        = some { a with
            Files := a.Files ++ ws.map (fun w => ({ Source := w } : config.ArtifactFile)) } := by
  have heq := python.find_listing_order (a.Build w1).2.1 (a.Build w2).2.1
    (filepath.Join [a.Path, "dist"]) ".whl" names1 names2 hd1 hd2 hperm
  have hp := python.find_perm (a.Build w1).2.1 (filepath.Join [a.Path, "dist"]) ".whl"
    names1 hd1
  have hne1 : python.FindFilesWithSuffixInPath (a.Build w1).2.1
      (filepath.Join [a.Path, "dist"]) ".whl" ≠ [] := by
    intro hnil
    rw [hnil] at hp
    obtain ⟨n, hn, hs⟩ := hne
    have hmem : filepath.Join [filepath.Join [a.Path, "dist"], n] ∈
        (names1.filter (fun n => ".whl".data.isSuffixOf n.data)).map
          (fun n => filepath.Join [filepath.Join [a.Path, "dist"], n]) :=
      List.mem_map.mpr ⟨n, List.mem_filter.mpr ⟨hn, hs⟩, rfl⟩
    rw [← hp.nil_eq] at hmem
    exact List.not_mem_nil _ hmem
  have hne2 : python.FindFilesWithSuffixInPath (a.Build w2).2.1
      (filepath.Join [a.Path, "dist"]) ".whl" ≠ [] := heq ▸ hne1
  have r1 := whl.apply_found name ⟨b, w1⟩ a h he1 hne1
  have r2 := whl.apply_found name ⟨b, w2⟩ a h he2 hne2
  refine ⟨_, hne1, python.find_sorted _ _ _, hp, ?_, ?_⟩
  · simp [whl.Build, r1, whl.setArtifact]
  · simp [whl.Build, r2, whl.setArtifact, heq]

/-- Witness for C7: `dist` lists `b.whl` before `a.whl` in one run and after it
in the other. -/
theorem build_discovery_deterministic_witness :
    ∃ ws : List String,
      ws ≠ [] ∧
      List.Sorted (fun x y : String => x.data ≤ y.data) ws ∧
      ws.Perm ((["b.whl", "a.whl"].filter (fun n => ".whl".data.isSuffixOf n.data)).map
        (fun n => filepath.Join [filepath.Join [sample.pkgArtifact.Path, "dist"], n])) ∧
      ((whl.Build "mylib").Apply
          ⟨sample.pkgBundle, sample.wheelWorld ["b.whl", "a.whl"]⟩).state.b.Config.Artifacts
          "mylib"
        = some { sample.pkgArtifact with
            Files := sample.pkgArtifact.Files
              ++ ws.map (fun w => ({ Source := w } : config.ArtifactFile)) } ∧
      ((whl.Build "mylib").Apply
          ⟨sample.pkgBundle, sample.wheelWorld ["a.whl", "b.whl"]⟩).state.b.Config.Artifacts
          "mylib"
        = some { sample.pkgArtifact with
            Files := sample.pkgArtifact.Files
              ++ ws.map (fun w => ({ Source := w } : config.ArtifactFile)) } :=
  build_discovery_deterministic "mylib" sample.pkgBundle
    (sample.wheelWorld ["b.whl", "a.whl"]) (sample.wheelWorld ["a.whl", "b.whl"])
    sample.pkgArtifact ["b.whl", "a.whl"] ["a.whl", "b.whl"]
    (by decide) (by decide) (by decide) (by decide) (by decide)
    (List.Perm.swap "a.whl" "b.whl" [])
    ⟨"b.whl", by decide, by decide⟩

/-- C8 (outcome of the artifact builder). The build mutator returns empty
diagnostics if and only if the artifact exists, its build command succeeds and
at least one ".whl" file is discovered; in every case the diagnostics are
either empty or exactly one diagnostic of Error severity. -/
theorem build_outcome (name : String) (s : bundle.State) :
    (((whl.Build name).Apply s).diags = [] ↔
      ∃ a, s.b.Config.Artifacts name = some a ∧ (a.Build s.world).1.2 = none ∧
        python.FindFilesWithSuffixInPath (a.Build s.world).2.1
          (filepath.Join [a.Path, "dist"]) ".whl" ≠ []) ∧
    (((whl.Build name).Apply s).diags = [] ∨
      ∃ summary, ((whl.Build name).Apply s).diags
        = [{ Severity := diag.Severity.Error, Summary := summary }]) := by
  cases h : s.b.Config.Artifacts name with
  | none =>
    have h1 := whl.apply_missing name s h
    simp [whl.Build, h1, diag.Errorf]
  | some a =>
    cases he : (a.Build s.world).1.2 with
    | some e =>
      have h1 := whl.apply_failed name s a e h he
      simp [whl.Build, h1, diag.Errorf, he]
    | none =>
      by_cases hw : python.FindFilesWithSuffixInPath (a.Build s.world).2.1
          (filepath.Join [a.Path, "dist"]) ".whl" = []
      · have h1 := whl.apply_empty name s a h he hw
        simp [whl.Build, h1, diag.Errorf, he, hw]
      · have h1 := whl.apply_found name s a h he hw
        simp [whl.Build, h1, he, hw]

/-- C9, as stated, fails: for the artifact `mylib` in directory `pkg`, with a
successful build and no `pkg/dist`, the directory scanned is `pkg/dist` but the
summary names `pkg`; it does not contain `pkg/dist`. -/
theorem build_empty_summary_dir_counterexample :
    ((whl.Build "mylib").Apply ⟨sample.pkgBundle, sample.quietWorld⟩).diags
      = [{ Severity := diag.Severity.Error,
           Summary := "cannot find built wheel in pkg for package mylib" }] ∧
    ((whl.Build "mylib").Apply ⟨sample.pkgBundle, sample.quietWorld⟩).diags
      ≠ [{ Severity := diag.Severity.Error,
           Summary := "cannot find built wheel in " ++ filepath.Join ["pkg", "dist"]
             ++ " for package mylib" }] ∧
    Event.readDir "pkg/dist"
      ∈ ((whl.Build "mylib").Apply ⟨sample.pkgBundle, sample.quietWorld⟩).events ∧
    Event.readDir "pkg"
      ∉ ((whl.Build "mylib").Apply ⟨sample.pkgBundle, sample.quietWorld⟩).events := by
  decide

/-- C9, amended. When the build succeeds and no wheel is discovered, the
directory in the summary "cannot find built wheel in dir for package name" is
the artifact's `Path`, while the only directory scanned is `Path/dist`. -/
theorem build_empty_summary_dir (name : String) (s : bundle.State) (a : config.Artifact)
    (h : s.b.Config.Artifacts name = some a)
    (he : (a.Build s.world).1.2 = none)
    (hw : python.FindFilesWithSuffixInPath (a.Build s.world).2.1
      (filepath.Join [a.Path, "dist"]) ".whl" = []) :
    (((whl.Build name).Apply s).diags.map (fun d => d.Summary))
      = ["cannot find built wheel in " ++ a.Path ++ " for package " ++ name] ∧
    (∀ d, Event.readDir d ∈ ((whl.Build name).Apply s).events
      ↔ d = filepath.Join [a.Path, "dist"]) := by
  have h1 := whl.apply_empty name s a h he hw
  constructor
  · simp [whl.Build, h1, diag.Errorf]
  · intro d
    simp [whl.Build, h1]

/-- Witness for the amended C9: `mylib` in `pkg`, build succeeds, no `pkg/dist`. -/
theorem build_empty_summary_dir_witness :
    (((whl.Build "mylib").Apply ⟨sample.pkgBundle, sample.quietWorld⟩).diags.map
        (fun d => d.Summary))
      = ["cannot find built wheel in " ++ sample.pkgArtifact.Path ++ " for package "
          ++ "mylib"] ∧
    (∀ d, Event.readDir d
        ∈ ((whl.Build "mylib").Apply ⟨sample.pkgBundle, sample.quietWorld⟩).events
      ↔ d = filepath.Join [sample.pkgArtifact.Path, "dist"]) :=
  build_empty_summary_dir "mylib" ⟨sample.pkgBundle, sample.quietWorld⟩ sample.pkgArtifact
    (by decide) (by decide) (by decide)

/-! ## Login of an entrypoint -/

namespace project

theorem needsCluster_needsWarehouse (e : Entrypoint) :
    e.NeedsCluster.2.NeedsWarehouse = e.NeedsWarehouse := by
  unfold Entrypoint.NeedsCluster Entrypoint.NeedsWarehouse
  cases h : e.Project.Installer with
  | none => simp [h]
  | some i => by_cases hc : (i.RequireDatabricksConnect && decide (i.MinRuntimeVersion = "")) = true
                <;> simp [hc]

theorem needsCluster_isAccountLevel (e : Entrypoint) :
    e.NeedsCluster.2.IsAccountLevel = e.IsAccountLevel := by
  unfold Entrypoint.NeedsCluster
  cases h : e.Project.Installer <;> simp

theorem needsCluster_again (e : Entrypoint) :
    e.NeedsCluster.2.NeedsCluster.1 = e.NeedsCluster.1 := by
  unfold Entrypoint.NeedsCluster
  cases h : e.Project.Installer with
  | none => simp [h]
  | some i =>
    by_cases hc : (i.RequireDatabricksConnect && decide (i.MinRuntimeVersion = "")) = true
    · simp [hc]
    · have hc2 : ¬ (i.RequireDatabricksConnect = true ∧ i.MinRuntimeVersion = "") := by
        simpa using hc
      simp [hc2]

end project

/-- C10 (login merge precedence). For an authenticated entrypoint whose login
configuration `lc`, `cfg` loads and whose config resolves to `r` without error,
the config object after `validLogin` is `r` with the merge applied: its
ClusterID is that of `r` when that is non-empty or the project needs no
cluster, and that of `login.json` when it is empty and `NeedsCluster` holds;
the WarehouseID likewise with `NeedsWarehouse`; no other field changes, and
when the project needs neither, the object is `r` itself.  This object is what
`validLogin` returns, unless one of its three later checks rejects it. -/
theorem validLogin_merge_precedence (e : project.Entrypoint) (env : project.Env)
    (lc : project.loginConfig) (cfg r : project.Config)
    (hauth : e.IsUnauthenticated = false)
    (hget : e.getLoginConfig env = project.Result.ok (lc, cfg))
    (hres : env.ensureResolved cfg = (none, r)) :
    (e.validLogin env).2
      = some (project.mergedLogin e.NeedsCluster.1 e.NeedsWarehouse lc r) ∧
    (r.ClusterID ≠ "" →
      (project.mergedLogin e.NeedsCluster.1 e.NeedsWarehouse lc r).ClusterID = r.ClusterID) ∧
    (r.ClusterID = "" → e.NeedsCluster.1 = true →
      (project.mergedLogin e.NeedsCluster.1 e.NeedsWarehouse lc r).ClusterID = lc.ClusterID) ∧
    (e.NeedsCluster.1 = false →
      (project.mergedLogin e.NeedsCluster.1 e.NeedsWarehouse lc r).ClusterID = r.ClusterID) ∧
    (r.WarehouseID ≠ "" →
      (project.mergedLogin e.NeedsCluster.1 e.NeedsWarehouse lc r).WarehouseID
        = r.WarehouseID) ∧
    (r.WarehouseID = "" → e.NeedsWarehouse = true →
      (project.mergedLogin e.NeedsCluster.1 e.NeedsWarehouse lc r).WarehouseID
        = lc.WarehouseID) ∧
    (e.NeedsWarehouse = false →
      (project.mergedLogin e.NeedsCluster.1 e.NeedsWarehouse lc r).WarehouseID
        = r.WarehouseID) ∧
    (e.NeedsCluster.1 = false → e.NeedsWarehouse = false →
      project.mergedLogin e.NeedsCluster.1 e.NeedsWarehouse lc r = r) ∧
    (e.validLogin env).1 =
      (if e.IsAccountLevel = true ∧ env.isAccountClient
          (project.mergedLogin e.NeedsCluster.1 e.NeedsWarehouse lc r) = false then
        project.Result.error project.ErrNotAccountClient
      else if e.NeedsCluster.1 = true ∧ env.isAccountClient
          (project.mergedLogin e.NeedsCluster.1 e.NeedsWarehouse lc r) = false ∧
          (project.mergedLogin e.NeedsCluster.1 e.NeedsWarehouse lc r).ClusterID = "" then
        project.Result.error project.ErrMissingClusterID
      else if e.NeedsWarehouse = true ∧ env.isAccountClient
          (project.mergedLogin e.NeedsCluster.1 e.NeedsWarehouse lc r) = false ∧
          (project.mergedLogin e.NeedsCluster.1 e.NeedsWarehouse lc r).WarehouseID = "" then
        project.Result.error project.ErrMissingWarehouseID
      else project.Result.ok (project.mergedLogin e.NeedsCluster.1 e.NeedsWarehouse lc r)) := by
  have hm : (if (e.NeedsCluster.2.NeedsWarehouse &&
        decide ((if (e.NeedsCluster.1 && decide (r.ClusterID = "")) = true then
          { r with ClusterID := lc.ClusterID } else r).WarehouseID = "")) = true then
        { (if (e.NeedsCluster.1 && decide (r.ClusterID = "")) = true then
          { r with ClusterID := lc.ClusterID } else r) with WarehouseID := lc.WarehouseID }
      else (if (e.NeedsCluster.1 && decide (r.ClusterID = "")) = true then
          { r with ClusterID := lc.ClusterID } else r))
      = project.mergedLogin e.NeedsCluster.1 e.NeedsWarehouse lc r := by
    rw [project.needsCluster_needsWarehouse]
    unfold project.mergedLogin
    clear hres
    obtain ⟨p, cf, ho, ac, c, w, l⟩ := r
    cases e.NeedsCluster.1 <;> cases e.NeedsWarehouse <;>
      by_cases h1 : c = "" <;> by_cases h2 : w = "" <;>
      simp [h1, h2]
  refine ⟨?_, ?_, ?_, ?_, ?_, ?_, ?_, ?_, ?_⟩
  · unfold project.Entrypoint.validLogin
    simp only [hauth, hget, hres, Bool.false_eq_true, if_false]
    rw [hm]
    split_ifs <;> rfl
  · intro h; simp [project.mergedLogin, h]
  · intro h h2; simp [project.mergedLogin, h, h2]
  · intro h; simp [project.mergedLogin, h]
  · intro h; simp [project.mergedLogin, h]
  · intro h h2; simp [project.mergedLogin, h, h2]
  · intro h; simp [project.mergedLogin, h]
  · intro h h2
    clear hres hm
    obtain ⟨p, cf, ho, ac, c, w, l⟩ := r
    by_cases h3 : c = "" <;> by_cases h4 : w = "" <;> simp [project.mergedLogin, h, h2, h3, h4]
  · unfold project.Entrypoint.validLogin
    simp only [hauth, hget, hres, Bool.false_eq_true, if_false]
    rw [hm, project.needsCluster_isAccountLevel, project.needsCluster_again,
      project.needsCluster_needsWarehouse, project.needsCluster_needsWarehouse]
    generalize project.mergedLogin e.NeedsCluster.1 e.NeedsWarehouse lc r = m
    cases e.IsAccountLevel <;> cases env.isAccountClient m <;> cases e.NeedsCluster.1 <;>
      cases e.NeedsWarehouse <;>
      by_cases h1 : m.ClusterID = "" <;> by_cases h2 : m.WarehouseID = "" <;>
      simp [h1, h2]

/-- Witness for C10: the resolved config has a cluster id and no warehouse id;
the cluster id is kept and the warehouse id comes from `login.json`. -/
theorem validLogin_merge_precedence_witness :
    (sample.labsEntrypoint.validLogin sample.labsEnv).2
      = some (project.mergedLogin sample.labsEntrypoint.NeedsCluster.1
          sample.labsEntrypoint.NeedsWarehouse sample.labsLogin
          (sample.labsEnv.ensureResolved
            (sample.labsEntrypoint.envAwareConfigWithProfile sample.labsEnv "dev")).2) ∧
    (sample.labsEntrypoint.validLogin sample.labsEnv).1
      = project.Result.ok
          { Profile := "dev", ConfigFile := "/home/u/.databrickscfg", Host := "https://h",
            ClusterID := "cfg-cluster", WarehouseID := "login-warehouse",
            Loaders := ["env.NewConfigLoader", "config.ConfigAttributes", "config.ConfigFile"] } :=
  have h := validLogin_merge_precedence sample.labsEntrypoint sample.labsEnv sample.labsLogin
    (sample.labsEntrypoint.envAwareConfigWithProfile sample.labsEnv "dev")
    (sample.labsEnv.ensureResolved
      (sample.labsEntrypoint.envAwareConfigWithProfile sample.labsEnv "dev")).2
    (by decide) (by decide) (by decide)
  ⟨h.1, by decide⟩

/-- C11 (missing login file is tolerated). Without a profile override: for an
entrypoint that is not bundle-aware, when loading `login.json` fails with an
error that is file-not-exist, `getLoginConfig` returns an empty `loginConfig`
with the environment-aware default config object and no error if
authentication is configured, and fails with `ErrNoLoginConfig` otherwise; and
for every entrypoint a load error that is not file-not-exist is returned
wrapped as "load: ..." and is not `ErrNoLoginConfig`. -/
theorem getLoginConfig_missing_login_file (e : project.Entrypoint) (env : project.Env)
    (hp : env.profileOverride = "") :
    (e.IsBundleAware = false →
      ∀ err, env.loadLoginConfig.2 = some err → err.Is project.ErrNotExist = true →
        ((env.authenticate (e.envAwareConfig env)).1 = none →
          e.getLoginConfig env
            = project.Result.ok ({}, (env.authenticate (e.envAwareConfig env)).2)) ∧
        ((env.authenticate (e.envAwareConfig env)).1 ≠ none →
          e.getLoginConfig env = project.Result.error project.ErrNoLoginConfig)) ∧
    (∀ err, env.loadLoginConfig.2 = some err → err.Is project.ErrNotExist = false →
      e.getLoginConfig env = project.Result.error (project.GoError.wrap "load" err) ∧
      (project.GoError.wrap "load" err).Error = "load: " ++ err.Error ∧
      e.getLoginConfig env ≠ project.Result.error project.ErrNoLoginConfig) := by
  constructor
  · intro hb err herr his
    constructor
    · intro ha
      simp [project.Entrypoint.getLoginConfig, project.Entrypoint.isAuthConfigured, hp, hb,
        herr, his, ha]
    · intro ha
      cases hx : (env.authenticate (e.envAwareConfig env)).1 with
      | none => exact absurd hx ha
      | some x =>
        simp [project.Entrypoint.getLoginConfig, project.Entrypoint.isAuthConfigured, hp, hb,
          herr, his, hx]
  · intro err herr his
    have h : e.getLoginConfig env = project.Result.error (project.GoError.wrap "load" err) := by
      simp [project.Entrypoint.getLoginConfig, hp, herr, his]
    refine ⟨h, ?_, ?_⟩
    · simp [project.GoError.Error, String.append_assoc]
    · rw [h]
      simp [project.ErrNoLoginConfig]

/-- Witness for C11: `login.json` is missing and authentication is configured
through the environment; and `login.json` exists but does not parse. -/
theorem getLoginConfig_missing_login_file_witness :
    sample.labsEntrypoint.getLoginConfig sample.noLoginEnv
      = project.Result.ok ({},
          (sample.noLoginEnv.authenticate
            (sample.labsEntrypoint.envAwareConfig sample.noLoginEnv)).2) ∧
    sample.labsEntrypoint.getLoginConfig sample.brokenLoginEnv
      = project.Result.error (project.GoError.wrap "load" (project.GoError.wrap "try load"
          (project.GoError.wrap "parse /home/u/.databricks/labs/x/config/login.json"
            (project.GoError.new "unexpected end of JSON input")))) :=
  ⟨((getLoginConfig_missing_login_file sample.labsEntrypoint sample.noLoginEnv
      (by decide)).1 (by decide) _ rfl (by decide)).1 (by decide),
    ((getLoginConfig_missing_login_file sample.labsEntrypoint sample.brokenLoginEnv
      (by decide)).2 _ rfl (by decide)).1⟩

/-! ## Paths -/

namespace filepath

theorem splitOn_ne_nil (sep : Char) (l : List Char) : splitOn sep l ≠ [] := by
  induction l with
  | nil => simp [splitOn]
  | cons c cs ih =>
    unfold splitOn
    cases h : splitOn sep cs with
    | nil => simp
    | cons x t => by_cases hc : c = sep <;> simp [hc]

theorem splitOn_sep_cons (sep : Char) (l : List Char) :
    splitOn sep (sep :: l) = [] :: splitOn sep l := by
  conv_lhs => unfold splitOn
  cases h : splitOn sep l with
  | nil => exact absurd h (splitOn_ne_nil sep l)
  | cons x t => simp

theorem splitOn_append_sep (sep : Char) (c rest : List Char) (hc : sep ∉ c) :
    splitOn sep (c ++ sep :: rest) = c :: splitOn sep rest := by
  induction c with
  | nil => simpa using splitOn_sep_cons sep rest
  | cons x c ih =>
    have hx : x ≠ sep := fun h => hc (by simp [h])
    have hc2 : sep ∉ c := fun h => hc (by simp [h])
    rw [List.cons_append]
    conv_lhs => unfold splitOn
    rw [ih hc2]
    simp [hx]

theorem splitOn_noSep (sep : Char) (c : List Char) (hc : sep ∉ c) : splitOn sep c = [c] := by
  induction c with
  | nil => simp [splitOn]
  | cons x c ih =>
    have hx : x ≠ sep := fun h => hc (by simp [h])
    have hc2 : sep ∉ c := fun h => hc (by simp [h])
    conv_lhs => unfold splitOn
    rw [ih hc2]
    simp [hx]

theorem intercalate_cons_cons (sep c d : List Char) (t : List (List Char)) :
    List.intercalate sep (c :: d :: t) = c ++ sep ++ List.intercalate sep (d :: t) := by
  simp [List.intercalate, List.intersperse]

theorem intercalate_single (sep c : List Char) : List.intercalate sep [c] = c := by
  simp [List.intercalate, List.intersperse]

theorem plainElem_iff (c : List Char) :
    plainElem c = true ↔ c ≠ [] ∧ '/' ∉ c ∧ c ≠ ['.'] ∧ c ≠ ['.', '.'] := by
  simp [plainElem, and_assoc]

theorem splitOn_intercalate (cs : List (List Char)) (hne : cs ≠ [])
    (hp : ∀ c ∈ cs, plainElem c = true) :
    splitOn '/' (List.intercalate ['/'] cs) = cs := by
  induction cs with
  | nil => exact absurd rfl hne
  | cons c t ih =>
    have hc : '/' ∉ c := ((plainElem_iff c).mp (hp c (by simp))).2.1
    cases t with
    | nil => rw [intercalate_single]; exact splitOn_noSep '/' c hc
    | cons d t =>
      rw [intercalate_cons_cons]
      have ht := ih (by simp) (fun x hx => hp x (List.mem_cons_of_mem _ hx))
      have : c ++ ['/'] ++ List.intercalate ['/'] (d :: t)
          = c ++ '/' :: List.intercalate ['/'] (d :: t) := by simp
      rw [this, splitOn_append_sep '/' c _ hc, ht]

theorem cleanPush_plain (rooted : Bool) (stack : List (List Char)) (c : List Char)
    (hc : plainElem c = true) : cleanPush rooted stack c = c :: stack := by
  obtain ⟨h1, _, h3, h4⟩ := (plainElem_iff c).mp hc
  simp [cleanPush, h1, h3, h4]

theorem foldl_cleanPush_plain (rooted : Bool) (cs : List (List Char))
    (stack : List (List Char)) (hp : ∀ c ∈ cs, plainElem c = true) :
    cs.foldl (cleanPush rooted) stack = cs.reverse ++ stack := by
  induction cs generalizing stack with
  | nil => simp
  | cons c t ih =>
    rw [List.foldl_cons, cleanPush_plain rooted stack c (hp c (by simp)),
      ih _ (fun x hx => hp x (List.mem_cons_of_mem _ hx))]
    simp

theorem intercalate_ne_nil (cs : List (List Char)) (hne : cs ≠ [])
    (hp : ∀ c ∈ cs, plainElem c = true) :
    ∃ x rest, List.intercalate ['/'] cs = x :: rest ∧ x ≠ '/' := by
  cases cs with
  | nil => exact absurd rfl hne
  | cons c t =>
    obtain ⟨h1, h2, _, _⟩ := (plainElem_iff c).mp (hp c (by simp))
    cases c with
    | nil => exact absurd rfl h1
    | cons x c =>
      have hx : x ≠ '/' := fun h => h2 (by simp [h])
      cases t with
      | nil => exact ⟨x, c, by simp [intercalate_single], hx⟩
      | cons d t =>
        exact ⟨x, c ++ '/' :: List.intercalate ['/'] (d :: t),
          by rw [intercalate_cons_cons]; simp, hx⟩

theorem Clean_fromElems (rooted : Bool) (cs : List (List Char)) (hne : cs ≠ [])
    (hp : ∀ c ∈ cs, plainElem c = true) :
    Clean (fromElems rooted cs) = fromElems rooted cs := by
  obtain ⟨x, rest, hx, hxs⟩ := intercalate_ne_nil cs hne hp
  cases rooted with
  | true =>
    simp only [Clean, fromElems, if_true, List.singleton_append, List.head?_cons,
      decide_True, splitOn_sep_cons, splitOn_intercalate cs hne hp, List.foldl_cons]
    simp [cleanPush, foldl_cleanPush_plain true cs [] hp]
  | false =>
    have hsplit := splitOn_intercalate cs hne hp
    have hdata : List.intercalate ['/'] cs ≠ [] := by rw [hx]; simp
    have hhead : (List.intercalate ['/'] cs).head? ≠ some '/' := by rw [hx]; simpa using hxs
    simp [Clean, fromElems, hdata, hhead, hsplit, foldl_cleanPush_plain false cs [] hp]

theorem intercalate_append_single (cs : List (List Char)) (t : List Char) (hne : cs ≠ []) :
    List.intercalate ['/'] (cs ++ [t]) = List.intercalate ['/'] cs ++ '/' :: t := by
  induction cs with
  | nil => exact absurd rfl hne
  | cons c r ih =>
    cases r with
    | nil => simp [intercalate_cons_cons, intercalate_single]
    | cons d r =>
      have := ih (by simp)
      rw [List.cons_append, List.cons_append, intercalate_cons_cons, intercalate_cons_cons]
      rw [List.cons_append] at this
      rw [this]
      simp

theorem Join_fromElems (rooted : Bool) (cs : List (List Char)) (t : String) (hne : cs ≠ [])
    (hp : ∀ c ∈ cs, plainElem c = true) (ht : plainElem t.data = true) :
    Join [fromElems rooted cs, t] = fromElems rooted cs ++ "/" ++ t := by
  obtain ⟨x, rest, hx, hxs⟩ := intercalate_ne_nil cs hne hp
  have hne2 : fromElems rooted cs ≠ "" := by
    intro h
    have := congrArg String.data h
    cases rooted <;> simp [fromElems, hx] at this
  have hcat : fromElems rooted cs ++ "/" ++ t = fromElems rooted (cs ++ [t.data]) := by
    apply String.ext
    simp [fromElems, String.data_append, intercalate_append_single cs t.data hne]
  have hp2 : ∀ c ∈ cs ++ [t.data], plainElem c = true := by
    intro c hc
    rcases List.mem_append.mp hc with h | h
    · exact hp c h
    · simp at h; rw [h]; exact ht
  have hj : Join [fromElems rooted cs, t] = Clean (fromElems rooted cs ++ "/" ++ t) := by
    simp [Join, hne2, String.intercalate, String.intercalate.go, String.append_assoc]
  rw [hj, hcat]
  exact Clean_fromElems rooted _ (by simp) hp2

end filepath

/-- C12 (sandboxed PYTHONPATH). `preparePython` sets `PYTHONPATH` to exactly the
effective lib dir and `filepath.Join(lib dir, "src")` joined by the path-list
separator, whatever the map passed in and the ambient environment hold; two
runs in which the project has the same effective lib dir and the separator is
the same yield the same `PYTHONPATH` entry, however their ambient environments
and maps differ; `PATH` is set to `filepath.Join(venv, "bin")`, the separator,
and the ambient `PATH`.  When the lib dir (the venv) is a path written from
plain elements, these are literally `lib dir/src` and `venv/bin`. -/
theorem preparePython_sandboxed (e : project.Entrypoint) (dirs : project.Dirs)
    (ctx1 ctx2 : project.Ctx) (environment1 environment2 : String → Option String)
    (hlib : dirs.EffectiveLibDir ctx1 = dirs.EffectiveLibDir ctx2)
    (hsep : ctx1.pathListSeparator = ctx2.pathListSeparator) :
    (e.preparePython dirs ctx1 environment1) "PYTHONPATH"
      = some (dirs.EffectiveLibDir ctx1 ++ String.singleton ctx1.pathListSeparator
          ++ filepath.Join [dirs.EffectiveLibDir ctx1, "src"]) ∧
    (e.preparePython dirs ctx1 environment1) "PYTHONPATH"
      = (e.preparePython dirs ctx2 environment2) "PYTHONPATH" ∧
    (e.preparePython dirs ctx1 environment1) "PATH"
      = some (filepath.Join [dirs.virtualEnvPath ctx1, "bin"]
          ++ String.singleton ctx1.pathListSeparator ++ ctx1.getenv "PATH") ∧
    (∀ (rooted : Bool) (cs : List (List Char)), cs ≠ [] →
      (∀ c ∈ cs, filepath.plainElem c = true) →
      dirs.EffectiveLibDir ctx1 = filepath.fromElems rooted cs →
      (e.preparePython dirs ctx1 environment1) "PYTHONPATH"
        = some (dirs.EffectiveLibDir ctx1 ++ String.singleton ctx1.pathListSeparator
            ++ (dirs.EffectiveLibDir ctx1 ++ "/" ++ "src"))) ∧
    (∀ (rooted : Bool) (cs : List (List Char)), cs ≠ [] →
      (∀ c ∈ cs, filepath.plainElem c = true) →
      dirs.virtualEnvPath ctx1 = filepath.fromElems rooted cs →
      (e.preparePython dirs ctx1 environment1) "PATH"
        = some (dirs.virtualEnvPath ctx1 ++ "/" ++ "bin"
            ++ String.singleton ctx1.pathListSeparator ++ ctx1.getenv "PATH")) := by
  have hpy : (e.preparePython dirs ctx1 environment1) "PYTHONPATH"
      = some (dirs.EffectiveLibDir ctx1 ++ String.singleton ctx1.pathListSeparator
          ++ filepath.Join [dirs.EffectiveLibDir ctx1, "src"]) := by
    simp [project.Entrypoint.preparePython, project.setEnv, project.Entrypoint.joinPaths,
      String.intercalate, String.intercalate.go]
  have hpath : (e.preparePython dirs ctx1 environment1) "PATH"
      = some (filepath.Join [dirs.virtualEnvPath ctx1, "bin"]
          ++ String.singleton ctx1.pathListSeparator ++ ctx1.getenv "PATH") := by
    simp [project.Entrypoint.preparePython, project.setEnv, project.Entrypoint.joinPaths,
      String.intercalate, String.intercalate.go]
  refine ⟨hpy, ?_, hpath, ?_, ?_⟩
  · simp [project.Entrypoint.preparePython, project.setEnv, project.Entrypoint.joinPaths,
      hlib, hsep]
  · intro rooted cs hne hp hl
    rw [hpy]
    have hj := filepath.Join_fromElems rooted cs "src" hne hp (by decide)
    rw [← hl] at hj
    rw [hj]
  · intro rooted cs hne hp hv
    rw [hpath]
    have hj := filepath.Join_fromElems rooted cs "bin" hne hp (by decide)
    rw [← hv] at hj
    rw [hj]

/-- Witness for C12: two runs of the same installed project, one with an
ambient `PYTHONPATH` and a map that already holds one, one without. -/
theorem preparePython_sandboxed_witness :
    (sample.labsEntrypoint.preparePython sample.labsDirs (sample.unixCtx "/tmp/evil")
        (fun k => if k = "PYTHONPATH" then some "/tmp/other" else none)) "PYTHONPATH"
      = some "/home/u/.databricks/labs/x/lib:/home/u/.databricks/labs/x/lib/src" ∧
    (sample.labsEntrypoint.preparePython sample.labsDirs (sample.unixCtx "")
        (fun _ => none)) "PYTHONPATH"
      = some "/home/u/.databricks/labs/x/lib:/home/u/.databricks/labs/x/lib/src" ∧
    (sample.labsEntrypoint.preparePython sample.labsDirs (sample.unixCtx "/tmp/evil")
        (fun k => if k = "PYTHONPATH" then some "/tmp/other" else none)) "PATH"
      = some "/home/u/.databricks/labs/x/state/venv/bin:/usr/bin:/bin" :=
  have h := preparePython_sandboxed sample.labsEntrypoint sample.labsDirs
    (sample.unixCtx "/tmp/evil") (sample.unixCtx "")
    (fun k => if k = "PYTHONPATH" then some "/tmp/other" else none)
    (fun _ => none) (by decide) (by decide)
  have hpy := h.2.2.2.1 true
    ["home".data, "u".data, ".databricks".data, "labs".data, "x".data, "lib".data]
    (by decide) (by decide) (by decide)
  have hpath := h.2.2.2.2 true
    ["home".data, "u".data, ".databricks".data, "labs".data, "x".data, "state".data,
      "venv".data]
    (by decide) (by decide) (by decide)
  ⟨hpy.trans (by decide), (h.2.1.symm.trans hpy).trans (by decide), hpath.trans (by decide)⟩

/-- C13 (argument validation of `external-locations create`). The validator
accepts exactly when the json flag was given and there is no positional
argument, or it was not given and there are exactly three; with the json flag
and any positional argument it fails with a message that begins "when --json
flag is specified, no positional arguments are required". -/
theorem newCreate_args_validation (changed : String → Bool) (args : List String) :
    (external_locations.newCreate.Args changed args = none ↔
      (changed "json" = true ∧ args.length = 0) ∨
      (changed "json" = false ∧ args.length = 3)) ∧
    (changed "json" = true → args ≠ [] →
      external_locations.newCreate.Args changed args
          = some (project.GoError.new
            ("when --json flag is specified, no positional arguments are required. "
              ++ "Provide 'name', 'url', 'credential_name' in your JSON input")) ∧
        "when --json flag is specified, no positional arguments are required".data
          <+: ("when --json flag is specified, no positional arguments are required. "
              ++ "Provide 'name', 'url', 'credential_name' in your JSON input").data) := by
  constructor
  · cases hj : changed "json"
    · by_cases h3 : args.length = 3 <;>
        simp [external_locations.newCreate, cobra.ExactArgs, hj, h3]
    · by_cases h0 : args.length = 0
      · have hE : cobra.ExactArgs 0 args = none := by
          simp only [cobra.ExactArgs, h0, ne_eq, not_true_eq_false, if_false]
        simp [external_locations.newCreate, hj, hE, h0]
      · have hE : cobra.ExactArgs 0 args = some (project.GoError.new
            ("accepts " ++ toString 0 ++ " arg(s), received " ++ toString args.length)) := by
          simp only [cobra.ExactArgs, ne_eq, h0, not_false_eq_true, if_true]
        simp [external_locations.newCreate, hj, hE, h0]
  · intro hj hne
    have h0 : args.length ≠ 0 := by
      intro h
      exact hne (List.length_eq_zero.mp h)
    refine ⟨?_, ?_⟩
    · simp only [external_locations.newCreate, cobra.ExactArgs, hj, h0, if_true, ne_eq,
        not_false_eq_true]
    · decide
